import Mathlib

/-!
Verification development for the aiwebchat repository's response-stream
normalization and multi-provider adaptation layer (functions/api/chat.js).

Strings from the JavaScript source are modelled as `List Char` (the
`TextDecoder` byte-to-text step is treated as already performed, so chunk
boundaries are character boundaries).  JavaScript JSON values are modelled
by the inductive `JValue`; `JSON.parse` by the fueled recursive-descent
parser `jsonParse` and `JSON.stringify` by `serialize`.
-/

abbrev Str := List Char

/-- A JavaScript JSON value.  Numbers keep their source numeral text
(no claim in this development inspects a numeric value beyond
zero-ness). -/
inductive JValue where
  | jnull
  | jbool (b : Bool)
  | jnum (raw : Str)
  | jstr (s : Str)
  | jarr (elems : List JValue)
  | jobj (fields : List (Str × JValue))
deriving Repr

namespace JValue

/-- JavaScript truthiness of a JSON value: `null`, `false`, `""` and
numeric zero are falsy; every object and array (even empty) is truthy. -/
def truthy : JValue → Bool
  | .jnull => false
  | .jbool b => b
  | .jstr s => !s.isEmpty
  | .jnum raw =>
      -- a JSON numeral denotes zero iff no digit 1-9 occurs before the exponent marker
      (raw.takeWhile (fun c => c ≠ 'e' ∧ c ≠ 'E')).any (fun c => '1' ≤ c ∧ c ≤ '9')
  | .jarr _ => true
  | .jobj _ => true

/-- Property access `o.k` on a parsed JSON value: defined (JS: not
`undefined`) only on objects carrying the key.  `JSON.parse` keeps the
last of duplicate keys, hence the reversed lookup. -/
def getField : JValue → Str → Option JValue
  | .jobj kvs, k => (kvs.reverse.find? (fun p => p.1 == k)).map (·.2)
  | _, _ => none

/-- Index access `v[0]` as the source's optional chains use it: an array
yields its first element, an object its `"0"` property, a string its
first character (as a one-character string); anything else is
`undefined`. -/
def idx0 : JValue → Option JValue
  | .jarr xs => xs.get? 0
  | .jobj kvs => getField (.jobj kvs) ['0']
  | .jstr s => (s.get? 0).map (fun c => .jstr [c])
  | _ => none

end JValue

/-- `x?.f`-style continuation: JavaScript optional chaining short-circuits
to `undefined` on both `undefined` and `null`. -/
def optChain (v : Option JValue) (f : JValue → Option JValue) : Option JValue :=
  match v with
  | none => none
  | some .jnull => none
  | some x => f x

/-! ## Decidable equality for `JValue` -/

mutual

def jeqV : JValue → JValue → Bool
  | .jnull, .jnull => true
  | .jbool a, .jbool b => a == b
  | .jnum a, .jnum b => a == b
  | .jstr a, .jstr b => a == b
  | .jarr a, .jarr b => jeqL a b
  | .jobj a, .jobj b => jeqM a b
  | _, _ => false

def jeqL : List JValue → List JValue → Bool
  | [], [] => true
  | x :: xs, y :: ys => jeqV x y && jeqL xs ys
  | _, _ => false

def jeqM : List (Str × JValue) → List (Str × JValue) → Bool
  | [], [] => true
  | (k, v) :: xs, (k2, v2) :: ys => k == k2 && jeqV v v2 && jeqM xs ys
  | _, _ => false

end

theorem jeqL_iff (xs ys : List JValue)
    (hx : ∀ x ∈ xs, ∀ b, jeqV x b = true ↔ x = b) :
    jeqL xs ys = true ↔ xs = ys := by
  induction xs generalizing ys with
  | nil => cases ys <;> simp [jeqL]
  | cons x xs ih =>
    cases ys with
    | nil => simp [jeqL]
    | cons y ys =>
      have h1 := hx x (by simp)
      have h2 := ih ys (fun z hz b => hx z (by simp [hz]) b)
      simp [jeqL, Bool.and_eq_true, h1, h2]

theorem jeqM_iff (xs ys : List (Str × JValue))
    (hx : ∀ p ∈ xs, ∀ b, jeqV p.2 b = true ↔ p.2 = b) :
    jeqM xs ys = true ↔ xs = ys := by
  induction xs generalizing ys with
  | nil => cases ys <;> simp [jeqM]
  | cons p xs ih =>
    cases ys with
    | nil => simp [jeqM]
    | cons q ys =>
      obtain ⟨k, v⟩ := p
      obtain ⟨k2, v2⟩ := q
      have h1 := hx (k, v) (by simp)
      have h2 := ih ys (fun z hz b => hx z (by simp [hz]) b)
      simp [jeqM, Bool.and_eq_true, h1, h2, Prod.ext_iff, and_assoc]

theorem jeqV_iff : ∀ (n : Nat) (a : JValue), sizeOf a ≤ n →
    ∀ b, (jeqV a b = true ↔ a = b) := by
  intro n
  induction n with
  | zero =>
    intro a ha
    exfalso
    cases a <;> simp_arith at ha
  | succ n ih =>
    intro a ha b
    cases a with
    | jnull => cases b <;> simp [jeqV]
    | jbool x => cases b <;> simp [jeqV]
    | jnum r => cases b <;> simp [jeqV]
    | jstr s => cases b <;> simp [jeqV]
    | jarr xs =>
      cases b with
      | jarr ys =>
        have hx : ∀ x ∈ xs, ∀ b, jeqV x b = true ↔ x = b := by
          intro x hmem b
          apply ih
          have h1 : sizeOf x < sizeOf xs := List.sizeOf_lt_of_mem hmem
          have h2 : sizeOf (JValue.jarr xs) ≤ n + 1 := ha
          simp_arith [JValue.jarr.sizeOf_spec] at h2
          omega
        simp [jeqV, jeqL_iff xs ys hx]
      | jnull | jbool _ | jnum _ | jstr _ | jobj _ => simp [jeqV]
    | jobj kvs =>
      cases b with
      | jobj kvs2 =>
        have hx : ∀ p ∈ kvs, ∀ b, jeqV p.2 b = true ↔ p.2 = b := by
          intro p hmem b
          apply ih
          have h1 : sizeOf p < sizeOf kvs := List.sizeOf_lt_of_mem hmem
          have h2 : sizeOf (JValue.jobj kvs) ≤ n + 1 := ha
          have h3 : sizeOf p.2 < sizeOf p := by
            obtain ⟨k, v⟩ := p
            simp_arith
          simp_arith [JValue.jobj.sizeOf_spec] at h2
          omega
        simp [jeqV, jeqM_iff kvs kvs2 hx]
      | jnull | jbool _ | jnum _ | jstr _ | jarr _ => simp [jeqV]

instance : DecidableEq JValue :=
  fun a b => decidable_of_iff (jeqV a b = true) (jeqV_iff (sizeOf a) a le_rfl b)

/-! ## JSON.stringify -/

/-- Escaping of one character inside a JSON string literal, as
`JSON.stringify` performs it. -/
def escChar (c : Char) : Str :=
  if c = '"' then ['\\', '"']
  else if c = '\\' then ['\\', '\\']
  else if c = '\n' then ['\\', 'n']
  else if c = '\r' then ['\\', 'r']
  else if c = '\t' then ['\\', 't']
  else if c = '\x08' then ['\\', 'b']
  else if c = '\x0c' then ['\\', 'f']
  else if c.val < 0x20 then
    ['\\', 'u', '0', '0',
     (Nat.digitChar (c.val.toNat / 16)), (Nat.digitChar (c.val.toNat % 16))]
  else [c]

/-- `JSON.stringify` of a string. -/
def serializeStr (s : Str) : Str :=
  '"' :: (s.flatMap escChar ++ ['"'])

mutual

/-- `JSON.stringify` of a JSON value (no spacing, as the source calls it). -/
def serialize : JValue → Str
  | .jnull => ['n', 'u', 'l', 'l']
  | .jbool true => ['t', 'r', 'u', 'e']
  | .jbool false => ['f', 'a', 'l', 's', 'e']
  | .jnum raw => raw
  | .jstr s => serializeStr s
  | .jarr xs => '[' :: (serializeElems xs ++ [']'])
  | .jobj kvs => '{' :: (serializeMembers kvs ++ ['}'])

def serializeElems : List JValue → Str
  | [] => []
  | [x] => serialize x
  | x :: y :: xs => serialize x ++ ',' :: serializeElems (y :: xs)

def serializeMembers : List (Str × JValue) → Str
  | [] => []
  | [(k, v)] => serializeStr k ++ ':' :: serialize v
  | (k, v) :: m :: kvs => serializeStr k ++ ':' :: serialize v ++ ',' :: serializeMembers (m :: kvs)

end

/-! ## JSON.parse -/

/-- JSON whitespace. -/
def jsonWs (c : Char) : Bool := c = ' ' ∨ c = '\t' ∨ c = '\n' ∨ c = '\r'

def skipWs (s : Str) : Str := s.dropWhile jsonWs

def hexVal (c : Char) : Option Nat :=
  if '0' ≤ c ∧ c ≤ '9' then some (c.toNat - '0'.toNat)
  else if 'a' ≤ c ∧ c ≤ 'f' then some (c.toNat - 'a'.toNat + 10)
  else if 'A' ≤ c ∧ c ≤ 'F' then some (c.toNat - 'A'.toNat + 10)
  else none

def hex4 (a b c d : Char) : Option Nat := do
  let x ← hexVal a; let y ← hexVal b; let z ← hexVal c; let w ← hexVal d
  pure (((x * 16 + y) * 16 + z) * 16 + w)

def escMap (c : Char) : Option Char :=
  if c = '"' then some '"'
  else if c = '\\' then some '\\'
  else if c = '/' then some '/'
  else if c = 'b' then some '\x08'
  else if c = 'f' then some '\x0c'
  else if c = 'n' then some '\n'
  else if c = 'r' then some '\r'
  else if c = 't' then some '\t'
  else none

/-- Turn a code point into a `Char`; lone surrogates (representable in a
JS string, not in `Char`) become U+FFFD.  No claim exercises them. -/
def codeToChar (n : Nat) : Char :=
  if n.isValidChar then Char.ofNat n else '�'

/-- Lexing pass over a JSON string literal body (after the opening
quote): yields the sequence of units — plain characters or `\uXXXX`
code units — and the input past the closing quote. -/
def parseStrUnits : Str → Option (List (Char ⊕ Nat) × Str)
  | [] => none
  | '"' :: rest => some ([], rest)
  | '\\' :: 'u' :: a :: b :: c :: d :: rest => do
      let n ← hex4 a b c d
      let (t, rem) ← parseStrUnits rest
      pure (.inr n :: t, rem)
  | '\\' :: e :: rest => do
      let c ← escMap e
      let (t, rem) ← parseStrUnits rest
      pure (.inl c :: t, rem)
  | c :: rest =>
      if c.val < 0x20 then none
      else (parseStrUnits rest).map (fun p => (Sum.inl c :: p.1, p.2))

/-- Combine `\uXXXX` code units, pairing surrogates as JavaScript
strings do. -/
def combineUnits : List (Char ⊕ Nat) → Str
  | [] => []
  | .inl c :: rest => c :: combineUnits rest
  | .inr hi :: .inr lo :: rest =>
      if 0xD800 ≤ hi ∧ hi ≤ 0xDBFF ∧ 0xDC00 ≤ lo ∧ lo ≤ 0xDFFF then
        codeToChar (0x10000 + (hi - 0xD800) * 0x400 + (lo - 0xDC00)) :: combineUnits rest
      else
        codeToChar hi :: combineUnits (.inr lo :: rest)
  | .inr hi :: rest => codeToChar hi :: combineUnits rest

/-- Body of a JSON string literal (after the opening quote): the decoded
string and the remaining input past the closing quote. -/
def parseStrBody (s : Str) : Option (Str × Str) :=
  (parseStrUnits s).map (fun p => (combineUnits p.1, p.2))

def digits1 (s : Str) : Option (Str × Str) :=
  let ds := s.takeWhile Char.isDigit
  if ds.isEmpty then none else some (ds, s.drop ds.length)

/-- A JSON numeral: `-? (0 | [1-9][0-9]*) frac? exp?`; returns the raw
consumed text and the remaining input. -/
def parseNumber (s : Str) : Option (Str × Str) := do
  let (neg, s1) := match s with
    | '-' :: r => (['-'], r)
    | _ => (([] : Str), s)
  let (intPart, s2) ← (match s1 with
    | '0' :: r => some (['0'], r)
    | c :: _ =>
        if '1' ≤ c ∧ c ≤ '9' then digits1 s1 else none
    | [] => none)
  let (fracPart, s3) ← (match s2 with
    | '.' :: r => (digits1 r).map (fun p => ('.' :: p.1, p.2))
    | _ => some (([] : Str), s2))
  let (expPart, s4) ← (match s3 with
    | e :: r =>
        if e = 'e' ∨ e = 'E' then
          let (sgn, r2) := match r with
            | '+' :: r' => (['+'], r')
            | '-' :: r' => (['-'], r')
            | _ => (([] : Str), r)
          (digits1 r2).map (fun p => (e :: sgn ++ p.1, p.2))
        else some (([] : Str), s3)
    | [] => some (([] : Str), s3))
  pure (neg ++ intPart ++ fracPart ++ expPart, s4)

mutual

/-- Fueled recursive-descent parser for one JSON value. -/
def parseValue : Nat → Str → Option (JValue × Str)
  | 0, _ => none
  | fuel + 1, s =>
    match skipWs s with
    | 'n' :: 'u' :: 'l' :: 'l' :: rest => some (.jnull, rest)
    | 't' :: 'r' :: 'u' :: 'e' :: rest => some (.jbool true, rest)
    | 'f' :: 'a' :: 'l' :: 's' :: 'e' :: rest => some (.jbool false, rest)
    | '"' :: rest => (parseStrBody rest).map (fun p => (JValue.jstr p.1, p.2))
    | '[' :: rest =>
        (match skipWs rest with
         | ']' :: rest2 => some (.jarr [], rest2)
         | _ => (parseElems fuel rest).map (fun p => (JValue.jarr p.1, p.2)))
    | '{' :: rest =>
        (match skipWs rest with
         | '}' :: rest2 => some (.jobj [], rest2)
         | _ => (parseMembers fuel rest).map (fun p => (JValue.jobj p.1, p.2)))
    | s' => (parseNumber s').map (fun p => (JValue.jnum p.1, p.2))

/-- Elements of a non-empty JSON array, up to and including `]`. -/
def parseElems : Nat → Str → Option (List JValue × Str)
  | 0, _ => none
  | fuel + 1, s => do
    let (v, rest) ← parseValue fuel s
    match skipWs rest with
    | ',' :: rest2 => (parseElems fuel rest2).map (fun p => (v :: p.1, p.2))
    | ']' :: rest2 => some ([v], rest2)
    | _ => none

/-- Members of a non-empty JSON object, up to and including `}`. -/
def parseMembers : Nat → Str → Option (List (Str × JValue) × Str)
  | 0, _ => none
  | fuel + 1, s =>
    match skipWs s with
    | '"' :: rest => do
        let (k, rest2) ← parseStrBody rest
        match skipWs rest2 with
        | ':' :: rest3 => do
            let (v, rest4) ← parseValue fuel rest3
            match skipWs rest4 with
            | ',' :: rest5 => (parseMembers fuel rest5).map (fun p => ((k, v) :: p.1, p.2))
            | '}' :: rest5 => some ([(k, v)], rest5)
            | _ => none
        | _ => none
    | _ => none

end

/-- `JSON.parse`: parse one value and require only whitespace to remain.
The fuel `2 * length + 4` is ample: every recursive step consumes input. -/
def jsonParse (s : Str) : Option JValue :=
  match parseValue (2 * s.length + 4) s with
  | some (v, rest) => if (skipWs rest).isEmpty then some v else none
  | none => none

/-! ## The Gemini stream normalizer (`transformGeminiStreamToSSE`)

The transform keeps a string `buffer` across reads.  On each chunk it
appends the decoded text, splits on `"\n\n"`, puts the last (possibly
incomplete) segment back into the buffer, and processes every complete
segment; on flush it emits one `data: [DONE]\n\n` frame. -/

/-- `buffer.split('\n\n')` followed by `lines.pop()`: the list of
complete segments (in order) and the trailing segment kept in the
buffer.  JavaScript `split` scans left to right for non-overlapping
occurrences of the separator. -/
def splitNN : Str → List Str × Str
  | [] => ([], [])
  | [c] => ([], [c])
  | a :: b :: rest =>
    if a = '\n' ∧ b = '\n' then
      let r := splitNN rest
      ([] :: r.1, r.2)
    else
      let r := splitNN (b :: rest)
      match r.1 with
      | [] => ([], a :: r.2)
      | p :: ps => ((a :: p) :: ps, r.2)

/-- The `data: ` marker tested by `line.startsWith('data: ')`. -/
def dataMarker : Str := "data: ".toList

/-- The optional chain
`geminiChunk.candidates?.[0]?.content?.parts?.[0]?.text`.
(The unguarded first access `.candidates` can only throw on `null`,
which the surrounding `catch` turns into a skip — observationally the
same as the `undefined` this function then returns.) -/
def extractGeminiText (j : JValue) : Option JValue :=
  optChain (optChain (optChain (optChain (optChain
    (j.getField ("candidates".toList))
    JValue.idx0)
    (fun v => v.getField ("content".toList)))
    (fun v => v.getField ("parts".toList)))
    JValue.idx0)
    (fun v => v.getField ("text".toList))

/-- `const textContent = chain || ''` followed by `if (textContent)`:
the segment produces a frame exactly when the chain yields a truthy
value, and the frame carries that value. -/
def geminiTextValue (j : JValue) : Option JValue :=
  match extractGeminiText j with
  | some v => if v.truthy then some v else none
  | none => none

/-- The OpenAI-compatible SSE payload the source builds:
`{choices: [{delta: {content: textContent}, index: 0, finish_reason: null}]}`. -/
def ssePayload (v : JValue) : JValue :=
  .jobj [("choices".toList, .jarr [.jobj [
    ("delta".toList, .jobj [("content".toList, v)]),
    ("index".toList, .jnum ['0']),
    ("finish_reason".toList, .jnull)]])]

/-- One emitted frame: `` `data: ${JSON.stringify(ssePayload)}\n\n` ``. -/
def sseFrame (v : JValue) : Str :=
  "data: ".toList ++ serialize (ssePayload v) ++ ['\n', '\n']

/-- The loop body run for each complete segment: segments not starting
with `data: ` are ignored; JSON parse failure is logged and skipped;
falsy extracted text emits nothing; otherwise one canonical frame is
enqueued. -/
def processLine (line : Str) : Option Str :=
  if dataMarker.isPrefixOf line then
    match jsonParse (line.drop 6) with
    | some j => (geminiTextValue j).map sseFrame
    | none => none
  else none

/-- The terminator frame enqueued by `flush`. -/
def doneFrame : Str := "data: [DONE]\n\n".toList

/-- State of the transform: the carry-over buffer and the frames
enqueued so far (in order). -/
structure TState where
  buffer : Str
  frames : List Str
deriving Repr, DecidableEq

/-- One `transform(chunk, controller)` call. -/
def stepChunk (st : TState) (chunk : Str) : TState :=
  let pt := splitNN (st.buffer ++ chunk)
  ⟨pt.2, st.frames ++ pt.1.filterMap processLine⟩

/-- A whole streamed response through the Gemini normalizer: the
frames enqueued by the `transform` calls for each chunk in order,
then the `flush` terminator. -/
def runStream (chunks : List Str) : List Str :=
  (chunks.foldl stepChunk ⟨[], []⟩).frames ++ [doneFrame]

/-! ## The chat endpoint handler (`handleChatRequest`)

Messages are modelled by `Msg`; the `parts` field is absent on
incoming messages and only ever set by the multimodal splice.  The
handler is embedded from the JSON-body stage on (the content-type and
body-parse rejections that precede it are independent of all claims).
-/

structure Msg where
  role : String
  content : JValue
  parts : Option JValue := none
deriving Repr, DecidableEq

/-- Characters the JavaScript regex `.` matches (anything but a line
terminator). -/
def jsDot (c : Char) : Bool :=
  c ≠ '\n' ∧ c ≠ '\r' ∧ c ≠ '\u2028' ∧ c ≠ '\u2029'

/-- The source's data-URL test `imageBase64.match(/^data:(image\/.+);base64,(.+)$/)`:
on success, the two captured groups (the part of group 1 after
`image/`, and group 2).  The first `.+` is greedy, so the split is at
the last `;base64,` for which both groups are non-empty and free of
line terminators. -/
def matchImageDataUrl (s : Str) : Option (Str × Str) :=
  let pre := "data:image/".toList
  if pre.isPrefixOf s then
    let rest := s.drop 11
    let sep := ";base64,".toList
    (List.range (rest.length + 1)).reverse.findSome? (fun i =>
      let a := rest.take i
      let tl := rest.drop i
      if a ≠ [] ∧ a.all jsDot ∧ sep.isPrefixOf tl then
        let b := tl.drop 8
        if b ≠ [] ∧ b.all jsDot then some (a, b) else none
      else none)
  else none

/-- Modelled from the spec: the data-URL pattern of §4.2,
`^data:(image/[^;]+);base64,(.+)$` — the spec's mime group `[^;]+`
(which, unlike the source's `.+`, cannot cross a `;`).  Used only to
state claims phrased against the spec's pattern. -/
def specImageDataUrlMatch (s : Str) : Option (Str × Str) :=
  let pre := "data:image/".toList
  if pre.isPrefixOf s then
    let rest := s.drop 11
    let sep := ";base64,".toList
    (List.range (rest.length + 1)).reverse.findSome? (fun i =>
      let a := rest.take i
      let tl := rest.drop i
      if a ≠ [] ∧ a.all (fun c => c ≠ ';') ∧ sep.isPrefixOf tl then
        let b := tl.drop 8
        if b ≠ [] ∧ b.all jsDot then some (a, b) else none
      else none)
  else none

/-- `model.startsWith('gemini')`. -/
def isGeminiModel (model : String) : Bool :=
  ("gemini".toList).isPrefixOf model.toList

/-- The OpenAI-compatible model-name family of the router's second
branch. -/
def isOllamaFamily (model : String) : Bool :=
  ("deepseek".toList).isPrefixOf model.toList
  ∨ ("gpt-".toList).isPrefixOf model.toList
  ∨ ("qwen".toList).isPrefixOf model.toList
  ∨ ("ollama-".toList).isPrefixOf model.toList

/-- The in-place rewrite of the last message when a valid image is
attached and the last message is a user turn (source lines 120-149).
In the source `lastMessage` aliases the caller's array element, so the
caller-visible message list after the handler ran its splice is
exactly the value of this function. -/
def spliceLast (model : String) (img : String) (m : Msg) : Msg :=
  if m.role = "user" then
    match matchImageDataUrl img.toList with
    | some (a, b) =>
      if isGeminiModel model then
        -- Gemini shape: parts := [{text}, {inline_data}], content kept
        { m with parts := some (.jarr [
            .jobj [("text".toList, m.content)],
            .jobj [("inline_data".toList, .jobj [
              ("mime_type".toList, .jstr ("image/".toList ++ a)),
              ("data".toList, .jstr b)])]]) }
      else
        -- OpenAI-compatible shape: content := [{type:text}, {type:image_url}]
        { m with content := .jarr [
            .jobj [("type".toList, .jstr ("text".toList)),
                   ("text".toList, m.content)],
            .jobj [("type".toList, .jstr ("image_url".toList)),
                   ("image_url".toList, .jobj [("url".toList, .jstr img.toList)])]] }
    | none => m
  else m

/-- The whole multimodal block: a no-op unless an image is present
(and truthy), the message list is non-empty, the last message is a
user turn and the data-URL regex matches. -/
def spliceMessages (model : String) (image : Option String) (msgs : List Msg) : List Msg :=
  match image with
  | none => msgs
  | some img =>
    if img.toList = [] then msgs
    else
      match msgs.getLast? with
      | none => msgs
      | some m => msgs.dropLast ++ [spliceLast model img m]

/-- One message mapped for the Gemini request body (source lines
158-171): role `user` stays `user`, anything else becomes `model`;
a message already carrying (truthy) `parts` keeps them, otherwise its
content is wrapped as a single text part. -/
def mapGeminiMsg (m : Msg) : JValue :=
  let role : JValue := .jstr (if m.role = "user" then "user".toList else "model".toList)
  match m.parts with
  | some p =>
    if p.truthy then .jobj [("role".toList, role), ("parts".toList, p)]
    else .jobj [("role".toList, role),
                ("parts".toList, .jarr [.jobj [("text".toList, m.content)]])]
  | none => .jobj [("role".toList, role),
                   ("parts".toList, .jarr [.jobj [("text".toList, m.content)]])]

/-- `messages.map(...)` of the Gemini branch. -/
def geminiContents (msgs : List Msg) : List JValue := msgs.map mapGeminiMsg

/-- One message serialized into the OpenAI-compatible request body:
the object's own fields (`parts` only when the splice added it). -/
def msgToJson (m : Msg) : JValue :=
  match m.parts with
  | some p => .jobj [("role".toList, .jstr m.role.toList),
                     ("content".toList, m.content),
                     ("parts".toList, p)]
  | none => .jobj [("role".toList, .jstr m.role.toList),
                   ("content".toList, m.content)]

inductive Provider where
  | gemini
  | ollama
deriving Repr, DecidableEq

/-- Environment bindings used by the router. -/
structure Env where
  geminiApiKey : String
  ollamaApiBaseUrl : String
deriving Repr, DecidableEq

/-- The provider request descriptor assembled by the router. -/
structure ApiConfig where
  provider : Provider
  endpoint : String
  apiKey : Option String
  modelName : String
  body : JValue
deriving Repr, DecidableEq

/-- `apiConfig` of the Gemini branch. -/
def geminiConfig (env : Env) (model : String) (stream : Option JValue)
    (msgs : List Msg) : ApiConfig :=
  { provider := .gemini
    endpoint :=
      if (match stream with | some v => v.truthy | none => false) then
        "https://generativelanguage.googleapis.com/v1beta/models/" ++ model
          ++ ":streamGenerateContent?alt=sse"
      else
        "https://generativelanguage.googleapis.com/v1beta/models/" ++ model
          ++ ":generateContent"
    apiKey := some env.geminiApiKey
    modelName := model
    body := .jobj [("contents".toList, .jarr (geminiContents msgs))] }

/-- `model.startsWith('ollama-') ? model.substring('ollama-'.length) : model`. -/
def strippedModel (model : String) : String :=
  if ("ollama-".toList).isPrefixOf model.toList then
    ⟨model.toList.drop 7⟩
  else model

/-- `apiConfig` of the OpenAI-compatible branch. -/
def ollamaConfig (env : Env) (model : String) (stream : Option JValue)
    (msgs : List Msg) : ApiConfig :=
  { provider := .ollama
    endpoint := env.ollamaApiBaseUrl ++ "/v1/chat/completions"
    apiKey := none
    modelName := strippedModel model
    body := .jobj [
      ("model".toList, .jstr (strippedModel model).toList),
      ("messages".toList, .jarr (msgs.map msgToJson)),
      ("stream".toList, match stream with | some v => v | none => .jbool true)] }

/-- The `messages` field of a parsed request body, as the validation
`!messages || !Array.isArray(messages) || messages.length === 0` sees
it.  Elements of a present array are taken to be message-shaped
objects (the only shape the claims exercise). -/
inductive MessagesField where
  | absent
  | notArray (v : JValue)
  | arr (msgs : List Msg)
deriving Repr, DecidableEq

/-- A parsed request body.  `model` is kept as an optional string:
the router only ever calls `startsWith` on it. -/
structure ReqBody where
  model : Option String
  messages : MessagesField
  stream : Option JValue := none
  image : Option String := none
deriving Repr, DecidableEq

/-- What the handler decides before any network I/O: either an early
JSON response or an upstream call described by an `ApiConfig`. -/
inductive Outcome where
  | early (status : Nat) (body : JValue)
  | upstream (cfg : ApiConfig)
deriving Repr, DecidableEq

/-- `{error: msg}`. -/
def errObj (msg : String) : JValue := .jobj [("error".toList, .jstr msg.toList)]

/-- The handler from field extraction to the dispatch decision
(source lines 104-208): input validation, multimodal splice, and
model-prefix routing. -/
def routeChatRequest (env : Env) (rb : ReqBody) : Outcome :=
  match rb.model with
  | none => .early 400 (errObj "Missing \"model\" in request body")
  | some model =>
    if model.toList = [] then .early 400 (errObj "Missing \"model\" in request body")
    else
      match rb.messages with
      | .absent => .early 400 (errObj "Missing or empty \"messages\" array in request body")
      | .notArray _ => .early 400 (errObj "Missing or empty \"messages\" array in request body")
      | .arr [] => .early 400 (errObj "Missing or empty \"messages\" array in request body")
      | .arr msgs =>
        let processed := spliceMessages model rb.image msgs
        if isGeminiModel model then
          .upstream (geminiConfig env model rb.stream processed)
        else if isOllamaFamily model then
          .upstream (ollamaConfig env model rb.stream processed)
        else
          .early 400 (errObj ("Unsupported model: " ++ model))

/-! ## The buffered (non-streaming) response path (source lines 252-329) -/

/-- `Response.ok`. -/
def statusOk (status : Nat) : Bool := 200 ≤ status ∧ status ≤ 299

/-- Template-literal interpolation `${v}` of a JSON value (JS
`String(v)`; objects print as `[object Object]`, arrays join their
elements — approximated by their JSON text, which no claim observes). -/
def jsToStr : JValue → Str
  | .jnull => "null".toList
  | .jbool true => "true".toList
  | .jbool false => "false".toList
  | .jnum raw => raw
  | .jstr s => s
  | .jobj _ => "[object Object]".toList
  | .jarr xs => serialize (.jarr xs)

def providerName : Provider → String
  | .gemini => "gemini"
  | .ollama => "ollama"

/-- `data.message || data.error?.message || JSON.stringify(data)`. -/
def backendErrDetail (data : JValue) : Str :=
  match data.getField ("message".toList) with
  | some v => if v.truthy then jsToStr v else backendErrDetailFallback data
  | none => backendErrDetailFallback data
where
  backendErrDetailFallback (data : JValue) : Str :=
    match optChain (data.getField ("error".toList)) (fun v => v.getField ("message".toList)) with
    | some v => if v.truthy then jsToStr v else serialize data
    | none => serialize data

/-- `data.error.message || JSON.stringify(data.error)` (the
business-error branch). -/
def dataErrDetail (err : JValue) : Str :=
  match err.getField ("message".toList) with
  | some v => if v.truthy then jsToStr v else serialize err
  | none => serialize err

/-- `replyContent` extraction per provider family (source lines
305-313). -/
def extractReply (provider : Provider) (data : JValue) : Option JValue :=
  match provider with
  | .gemini => extractGeminiText data
  | .ollama =>
      optChain (optChain (optChain
        (data.getField ("choices".toList))
        JValue.idx0)
        (fun v => v.getField ("message".toList)))
        (fun v => v.getField ("content".toList))

/-- A handler HTTP response with a structured JSON body (every return
in this path is `new Response(JSON.stringify(<object>), …)`). -/
structure HttpResp where
  status : Nat
  body : JValue
deriving Repr, DecidableEq

/-- The buffered branch: parse the upstream body, then classify
(source lines 252-329).  `bodyText` is the upstream body text.  A JSON
parse failure takes the `catch (jsonError)` branch, whose
`backendResponse.text()` re-read throws — `json()` already consumed
the single-read body — so control reaches the outer `catch` (line
330), which answers 500 `{error: "Worker internal error: …"}`
(the `…` is the runtime's body-already-used message, which no claim
observes). -/
def processBuffered (provider : Provider) (status : Nat)
    (bodyText : Str) : HttpResp :=
  match jsonParse bodyText with
  | none =>
    { status := 500
      body := .jobj [("error".toList,
        .jstr ("Worker internal error: Body has already been used".toList))] }
  | some data =>
    if ¬ statusOk status then
      { status := status
        body := .jobj [
          ("error".toList, .jstr (("Backend API error (" ++ providerName provider ++ "): ").toList
            ++ backendErrDetail data)),
          ("statusCode".toList, .jnum (Nat.repr status).toList),
          ("originalResponse".toList, data)] }
    else
      match data.getField ("error".toList) with
      | some err =>
        if err.truthy then
          { status := status
            body := .jobj [
              ("error".toList, .jstr (("Backend API error (" ++ providerName provider ++ "): ").toList
                ++ dataErrDetail err)),
              ("statusCode".toList, .jnum (Nat.repr status).toList),
              ("originalResponse".toList, data)] }
        else processReply provider data
      | none => processReply provider data
where
  processReply (provider : Provider) (data : JValue) : HttpResp :=
    match extractReply provider data with
    | none =>
      { status := 500
        body := .jobj [("error".toList,
          .jstr ("Unexpected response from " ++ providerName provider).toList)] }
    | some reply =>
      { status := 200, body := .jobj [("reply".toList, reply)] }

/-! ## The streaming response branch (source lines 231-249)

The handler returns the upstream status with a body that is the
upstream byte stream, passed through `transformGeminiStreamToSSE` for
the Gemini provider and unchanged otherwise. -/

/-- The streamed response: status is `backendResponse.status`; the body
is the concatenation of what the client receives. -/
def streamingResponse (provider : Provider) (status : Nat)
    (chunks : List Str) : Nat × Str :=
  match provider with
  | .gemini => (status, (runStream chunks).flatten)
  | .ollama => (status, chunks.flatten)

/-- Modelled from the spec: the Gemini-specific conversation repair of
§4.1 — (a) drop turns with empty text and no attachment, (b) drop
leading turns until the first `user` turn (`InvalidHistoryError`,
i.e. `none`, if there is none), (c) merge consecutive same-role
text-only turns joining their texts with a newline, and fail if the
result is empty.  The source has no such code; this definition exists
only to state the claim that asserts it. -/
def specRepairHistory (msgs : List Msg) : Option (List Msg) :=
  let nonEmpty := msgs.filter (fun m => ¬ (m.content = .jstr [] ∧ m.parts = none))
  let fromUser := nonEmpty.dropWhile (fun m => m.role ≠ "user")
  if (nonEmpty.filter (fun m => m.role = "user")).isEmpty then none
  else
    let merged := fromUser.foldl (fun acc m =>
      match acc.getLast? with
      | some prev =>
        if prev.role = m.role ∧ prev.parts = none ∧ m.parts = none then
          match prev.content, m.content with
          | .jstr a, .jstr b => acc.dropLast ++ [{ prev with content := .jstr (a ++ '\n' :: b) }]
          | _, _ => acc ++ [m]
        else acc ++ [m]
      | none => [m]) []
    if merged.isEmpty then none else some merged

/-! ## Sanity checks for the JSON layer -/

example : jsonParse ("\x7b\"a\":1\x7d".toList)
    = some (.jobj [(['a'], .jnum ['1'])]) := by decide
example : jsonParse ("null".toList) = some .jnull := by decide
example : jsonParse ("[true, false]".toList) = some (.jarr [.jbool true, .jbool false]) := by decide
example : jsonParse ("data: x".toList) = none := by decide
example : jsonParse ("\x7b\"a\":\x7b".toList) = none := by decide
example : serialize (.jobj [(['a'], .jstr ['h', 'i'])]) = "\x7b\"a\":\"hi\"\x7d".toList := by decide
example : JValue.truthy (.jstr []) = false := by decide
example : JValue.truthy (.jnum ['0', '.', '0']) = false := by decide
example : JValue.truthy (.jnum ['-', '5']) = true := by decide

/-! ## Properties of the buffer split -/

theorem splitNN_nil_pieces : ∀ s : Str, (splitNN s).1 = [] → (splitNN s).2 = s := by
  intro s
  induction s using splitNN.induct with
  | case1 => simp [splitNN]
  | case2 c => simp [splitNN]
  | case3 a b rest hab ih =>
    simp [splitNN, hab]
  | case4 a b rest hab r hr ih =>
    have hr' : (splitNN (b :: rest)).1 = [] := hr
    have ht : (splitNN (b :: rest)).2 = b :: rest := ih hr
    simp only [splitNN, if_neg hab]
    simp only [hr', ht]
    intro _
    trivial
  | case5 a b rest hab r p ps hr ih =>
    have hr' : (splitNN (b :: rest)).1 = p :: ps := hr
    simp only [splitNN, if_neg hab]
    simp only [hr']
    simp

/-- Splitting is compatible with feeding the input in two pieces: the
complete segments of `x ++ y` are those of `x` followed by those of
`x`'s trailing segment glued to `y`. -/
theorem splitNN_append : ∀ x y : Str,
    splitNN (x ++ y)
      = ((splitNN x).1 ++ (splitNN ((splitNN x).2 ++ y)).1,
         (splitNN ((splitNN x).2 ++ y)).2) := by
  intro x
  induction x using splitNN.induct with
  | case1 => intro y; simp [splitNN]
  | case2 c => intro y; simp [splitNN]
  | case3 a b rest hab ih =>
    intro y
    obtain ⟨ha, hb⟩ := hab
    subst ha; subst hb
    simp only [List.cons_append]
    rw [show splitNN ('\n' :: '\n' :: (rest ++ y))
        = ([] :: (splitNN (rest ++ y)).1, (splitNN (rest ++ y)).2) by simp [splitNN]]
    rw [show splitNN ('\n' :: '\n' :: rest)
        = ([] :: (splitNN rest).1, (splitNN rest).2) by simp [splitNN]]
    rw [ih y]
    simp
  | case4 a b rest hab r hr ih =>
    intro y
    have hr' : (splitNN (b :: rest)).1 = [] := hr
    have htrail : (splitNN (b :: rest)).2 = b :: rest := splitNN_nil_pieces _ hr'
    have hx : splitNN (a :: b :: rest) = ([], a :: b :: rest) := by
      simp only [splitNN, if_neg hab]
      simp only [hr', htrail]
    rw [hx]
    simp
  | case5 a b rest hab r p ps hr ih =>
    intro y
    have hr' : (splitNN (b :: rest)).1 = p :: ps := hr
    have hx : splitNN (a :: b :: rest) = ((a :: p) :: ps, (splitNN (b :: rest)).2) := by
      simp only [splitNN, if_neg hab]
      simp only [hr']
    have h1 := ih y
    rw [List.cons_append] at h1
    have hcons : splitNN (a :: b :: (rest ++ y))
        = ((a :: p) :: (ps ++ (splitNN ((splitNN (b :: rest)).2 ++ y)).1),
           (splitNN ((splitNN (b :: rest)).2 ++ y)).2) := by
      simp only [splitNN, if_neg hab]
      rw [h1, hr']
      simp
    simp only [List.cons_append] at hcons ⊢
    rw [hcons, hx]
    simp

/-! ## Properties of the transform state machine -/

/-- Two `transform` calls behave like one call on the concatenated
chunk. -/
theorem stepChunk_append (st : TState) (a b : Str) :
    stepChunk (stepChunk st a) b = stepChunk st (a ++ b) := by
  unfold stepChunk
  rw [show st.buffer ++ (a ++ b) = (st.buffer ++ a) ++ b from (List.append_assoc _ _ _).symm]
  rw [splitNN_append (st.buffer ++ a) b]
  simp [List.filterMap_append, List.append_assoc]

theorem foldl_stepChunk : ∀ (cs : List Str) (c : Str) (st : TState),
    List.foldl stepChunk st (c :: cs) = stepChunk st (c ++ cs.flatten) := by
  intro cs
  induction cs with
  | nil => intro c st; simp [List.foldl]
  | cons d cs ih =>
    intro c st
    have h0 : List.foldl stepChunk st (c :: d :: cs)
        = List.foldl stepChunk (stepChunk st c) (d :: cs) := rfl
    rw [h0, ih d (stepChunk st c), stepChunk_append]
    simp [List.flatten_cons, List.append_assoc]

/-- Feeding one chunk from the empty state. -/
theorem runStream_single (z : Str) :
    runStream [z] = ((splitNN z).1).filterMap processLine ++ [doneFrame] := by
  simp [runStream, stepChunk]

/-! ## Frame shape lemmas -/

theorem processLine_eq_some {line f : Str} (h : processLine line = some f) :
    ∃ v, f = sseFrame v := by
  unfold processLine at h
  split at h
  · cases hp : jsonParse (line.drop 6) with
    | none => rw [hp] at h; exact absurd h (by simp)
    | some j =>
      rw [hp] at h
      rw [Option.map_eq_some'] at h
      obtain ⟨v, _, hv⟩ := h
      exact ⟨v, hv.symm⟩
  · exact absurd h (by simp)

theorem sseFrame_drop6 (v : JValue) :
    (sseFrame v).drop 6 = serialize (ssePayload v) ++ ['\n', '\n'] := rfl

theorem sseFrame_ne_doneFrame (v : JValue) : sseFrame v ≠ doneFrame := by
  intro h
  have h2 : ((sseFrame v).drop 6).head? = ((doneFrame).drop 6).head? := by rw [h]
  have hl : ((sseFrame v).drop 6).head? = some '{' := rfl
  have hrr : ((doneFrame).drop 6).head? = some '[' := rfl
  rw [hl, hrr] at h2
  exact absurd (Option.some.inj h2) (by decide)

theorem frames_foldl_mem : ∀ (cs : List Str) (st : TState) (f : Str),
    f ∈ (List.foldl stepChunk st cs).frames → f ∈ st.frames ∨ ∃ v, f = sseFrame v := by
  intro cs
  induction cs with
  | nil => intro st f h; exact Or.inl h
  | cons c cs ih =>
    intro st f h
    rcases ih (stepChunk st c) f h with h1 | h2
    · unfold stepChunk at h1
      simp only [List.mem_append, List.mem_filterMap] at h1
      rcases h1 with h1 | ⟨l, _, hpl⟩
      · exact Or.inl h1
      · exact Or.inr (processLine_eq_some hpl)
    · exact Or.inr h2

/-- The emitted JSON payload around the encoded text fragment. -/
theorem serialize_ssePayload (t : Str) :
    serialize (ssePayload (.jstr t))
      = ("\x7b\"choices\":[\x7b\"delta\":\x7b\"content\":".toList)
        ++ serializeStr t
        ++ ("\x7d,\"index\":0,\"finish_reason\":null\x7d]\x7d".toList) := by
  simp only [ssePayload, serialize, serializeMembers, serializeElems, List.append_assoc,
    List.cons_append]
  rfl

/-- A frame for a string fragment, spelled out. -/
theorem sseFrame_canonical (t : Str) :
    sseFrame (.jstr t)
      = ("data: \x7b\"choices\":[\x7b\"delta\":\x7b\"content\":".toList)
        ++ serializeStr t
        ++ ("\x7d,\"index\":0,\"finish_reason\":null\x7d]\x7d\n\n".toList) := by
  unfold sseFrame
  rw [serialize_ssePayload]
  simp only [List.append_assoc, List.cons_append]
  rfl

/-- Chunking invariance of a whole streamed run (shared by several
claims below). -/
theorem runStream_flatten (chunks : List Str) :
    runStream chunks = runStream [chunks.flatten] := by
  cases chunks with
  | nil => rfl
  | cons c cs =>
    unfold runStream
    rw [foldl_stepChunk cs c ⟨[], []⟩]
    rw [show List.foldl stepChunk ⟨[], []⟩ [(c :: cs).flatten]
        = stepChunk ⟨[], []⟩ ((c :: cs).flatten) from rfl]
    rw [List.flatten_cons]

/-- The full output of a run, as segment-wise processing. -/
theorem runStream_eq_filterMap (chunks : List Str) :
    runStream chunks
      = ((splitNN chunks.flatten).1).filterMap processLine ++ [doneFrame] := by
  rw [runStream_flatten, runStream_single]

/-- C1: For every complete Gemini-native stream segment that starts
with the marker `data: ` and whose JSON carries a non-empty text at
`candidates[0].content.parts[0].text`, the stream normalizer emits
exactly one canonical frame
`data: {"choices":[{"delta":{"content":<text>},"index":0,"finish_reason":null}]}\n\n`
carrying that text, and the emitted frames appear in the same order as
their source segments (the output is the in-order `filterMap` of the
complete segments, one frame per qualifying segment). -/
theorem c1_gemini_segment_canonical_frame (chunks : List Str) :
    (runStream chunks
      = ((splitNN chunks.flatten).1).filterMap processLine ++ [doneFrame])
    ∧ ∀ seg j t, seg ∈ (splitNN chunks.flatten).1 →
        dataMarker.isPrefixOf seg = true →
        jsonParse (seg.drop 6) = some j →
        extractGeminiText j = some (.jstr t) →
        t ≠ [] →
        processLine seg
          = some (("data: \x7b\"choices\":[\x7b\"delta\":\x7b\"content\":".toList)
              ++ serializeStr t
              ++ ("\x7d,\"index\":0,\"finish_reason\":null\x7d]\x7d\n\n".toList)) := by
  refine ⟨runStream_eq_filterMap chunks, ?_⟩
  intro seg j t _ hpre hparse hext hne
  have ht : (JValue.jstr t).truthy = true := by
    simp [JValue.truthy, List.isEmpty_iff, hne]
  simp only [processLine, hpre, if_true, hparse, geminiTextValue, hext, ht, if_pos,
    Option.map_some']
  rw [sseFrame_canonical]

/-- Witness for C1 at the spec's Scenario D segment. -/
theorem c1_gemini_segment_canonical_frame_witness :
    (("data: \x7b\"candidates\":[\x7b\"content\":\x7b\"parts\":[\x7b\"text\":\"Hi\"\x7d]\x7d\x7d]\x7d".toList)
        ∈ (splitNN ([("data: \x7b\"candidates\":[\x7b\"content\":\x7b\"parts\":[\x7b\"text\":\"Hi\"\x7d]\x7d\x7d]\x7d\n\n".toList)].flatten)).1
      ∧ dataMarker.isPrefixOf ("data: \x7b\"candidates\":[\x7b\"content\":\x7b\"parts\":[\x7b\"text\":\"Hi\"\x7d]\x7d\x7d]\x7d".toList) = true
      ∧ jsonParse (("data: \x7b\"candidates\":[\x7b\"content\":\x7b\"parts\":[\x7b\"text\":\"Hi\"\x7d]\x7d\x7d]\x7d".toList).drop 6)
          = some (.jobj [("candidates".toList, .jarr [.jobj [("content".toList,
              .jobj [("parts".toList, .jarr [.jobj [("text".toList, .jstr ['H', 'i'])]])])]])])
      ∧ extractGeminiText (.jobj [("candidates".toList, .jarr [.jobj [("content".toList,
              .jobj [("parts".toList, .jarr [.jobj [("text".toList, .jstr ['H', 'i'])]])])]])])
          = some (.jstr ['H', 'i'])
      ∧ (['H', 'i'] : Str) ≠ [])
    ∧ processLine ("data: \x7b\"candidates\":[\x7b\"content\":\x7b\"parts\":[\x7b\"text\":\"Hi\"\x7d]\x7d\x7d]\x7d".toList)
        = some (("data: \x7b\"choices\":[\x7b\"delta\":\x7b\"content\":".toList)
            ++ serializeStr ['H', 'i']
            ++ ("\x7d,\"index\":0,\"finish_reason\":null\x7d]\x7d\n\n".toList)) :=
  ⟨⟨by decide, by decide, by decide, by decide, by decide⟩,
    (c1_gemini_segment_canonical_frame
      [("data: \x7b\"candidates\":[\x7b\"content\":\x7b\"parts\":[\x7b\"text\":\"Hi\"\x7d]\x7d\x7d]\x7d\n\n".toList)]).2
      ("data: \x7b\"candidates\":[\x7b\"content\":\x7b\"parts\":[\x7b\"text\":\"Hi\"\x7d]\x7d\x7d]\x7d".toList)
      (.jobj [("candidates".toList, .jarr [.jobj [("content".toList,
        .jobj [("parts".toList, .jarr [.jobj [("text".toList, .jstr ['H', 'i'])]])])]])])
      ['H', 'i']
      (by decide) (by decide) (by decide) (by decide) (by decide)⟩

/-- C2 (amended): every streaming response produced through the Gemini
stream normalizer ends with exactly one terminator frame
`data: [DONE]\n\n`, whatever the number of upstream chunks (including
zero) and of content frames (including zero); for the OpenAI-compatible
provider the upstream body is passed through unchanged and no
terminator is added. -/
theorem c2_gemini_stream_ends_with_done (chunks : List Str) :
    ∃ fs, runStream chunks = fs ++ [doneFrame] ∧ doneFrame ∉ fs := by
  refine ⟨(List.foldl stepChunk ⟨[], []⟩ chunks).frames, rfl, ?_⟩
  intro hmem
  rcases frames_foldl_mem chunks ⟨[], []⟩ doneFrame hmem with h | ⟨v, hv⟩
  · simp at h
  · exact sseFrame_ne_doneFrame v hv.symm

/-- C2 counterexample: a streaming response on the OpenAI-compatible
(passthrough) branch whose upstream body reached end-of-stream without
a terminator — the handler's output does not end with
`data: [DONE]\n\n`, so the claim's "every streaming response" fails on
the code. -/
theorem c2_counterexample :
    streamingResponse .ollama 200
        [("data: \x7b\"choices\":[\x7b\"delta\":\x7b\"content\":\"Hi\"\x7d,\"index\":0,\"finish_reason\":null\x7d]\x7d\n\n".toList)]
      = (200, ("data: \x7b\"choices\":[\x7b\"delta\":\x7b\"content\":\"Hi\"\x7d,\"index\":0,\"finish_reason\":null\x7d]\x7d\n\n".toList))
    ∧ doneFrame.isSuffixOf
        ("data: \x7b\"choices\":[\x7b\"delta\":\x7b\"content\":\"Hi\"\x7d,\"index\":0,\"finish_reason\":null\x7d]\x7d\n\n".toList)
      = false := by
  refine ⟨rfl, by decide⟩

/-- C3: feeding the same byte sequence to the Gemini stream normalizer
split at arbitrary boundaries produces exactly the same output as
feeding it in a single chunk (stated for all chunkings, not only ones
cutting valid fragments). -/
theorem c3_chunking_invariance (chunks : List Str) :
    runStream chunks = runStream [chunks.flatten] :=
  runStream_flatten chunks

/-- C4: if one complete segment fails JSON parsing, the normalizer
skips it and continues: the output is exactly the frames of the
segments before it, then those after it, then the terminator — no
error frame is surfaced. -/
theorem c4_malformed_segment_skipped (chunks pre post : List Str) (bad : Str)
    (hsegs : (splitNN chunks.flatten).1 = pre ++ bad :: post)
    (hpre : dataMarker.isPrefixOf bad = true)
    (hparse : jsonParse (bad.drop 6) = none) :
    runStream chunks
      = (pre.filterMap processLine ++ post.filterMap processLine) ++ [doneFrame] := by
  have hbad : processLine bad = none := by
    simp [processLine, hpre, hparse]
  rw [runStream_eq_filterMap, hsegs]
  simp [List.filterMap_append, List.filterMap_cons, hbad]

/-- Witness for C4: a malformed middle segment between two good ones. -/
theorem c4_malformed_segment_skipped_witness :
    ((splitNN (([("data: \x7b\"candidates\":[\x7b\"content\":\x7b\"parts\":[\x7b\"text\":\"A\"\x7d]\x7d\x7d]\x7d\n\ndata: \x7boops\n\ndata: \x7b\"candidates\":[\x7b\"content\":\x7b\"parts\":[\x7b\"text\":\"B\"\x7d]\x7d\x7d]\x7d\n\n".toList)] : List Str).flatten)).1
        = [("data: \x7b\"candidates\":[\x7b\"content\":\x7b\"parts\":[\x7b\"text\":\"A\"\x7d]\x7d\x7d]\x7d".toList)]
          ++ ("data: \x7boops".toList)
          :: [("data: \x7b\"candidates\":[\x7b\"content\":\x7b\"parts\":[\x7b\"text\":\"B\"\x7d]\x7d\x7d]\x7d".toList)]
      ∧ dataMarker.isPrefixOf ("data: \x7boops".toList) = true
      ∧ jsonParse (("data: \x7boops".toList).drop 6) = none)
    ∧ runStream [("data: \x7b\"candidates\":[\x7b\"content\":\x7b\"parts\":[\x7b\"text\":\"A\"\x7d]\x7d\x7d]\x7d\n\ndata: \x7boops\n\ndata: \x7b\"candidates\":[\x7b\"content\":\x7b\"parts\":[\x7b\"text\":\"B\"\x7d]\x7d\x7d]\x7d\n\n".toList)]
        = (([("data: \x7b\"candidates\":[\x7b\"content\":\x7b\"parts\":[\x7b\"text\":\"A\"\x7d]\x7d\x7d]\x7d".toList)].filterMap processLine
            ++ [("data: \x7b\"candidates\":[\x7b\"content\":\x7b\"parts\":[\x7b\"text\":\"B\"\x7d]\x7d\x7d]\x7d".toList)].filterMap processLine)
           ++ [doneFrame]) :=
  ⟨⟨by decide, by decide, by decide⟩,
    c4_malformed_segment_skipped
      [("data: \x7b\"candidates\":[\x7b\"content\":\x7b\"parts\":[\x7b\"text\":\"A\"\x7d]\x7d\x7d]\x7d\n\ndata: \x7boops\n\ndata: \x7b\"candidates\":[\x7b\"content\":\x7b\"parts\":[\x7b\"text\":\"B\"\x7d]\x7d\x7d]\x7d\n\n".toList)]
      [("data: \x7b\"candidates\":[\x7b\"content\":\x7b\"parts\":[\x7b\"text\":\"A\"\x7d]\x7d\x7d]\x7d".toList)]
      [("data: \x7b\"candidates\":[\x7b\"content\":\x7b\"parts\":[\x7b\"text\":\"B\"\x7d]\x7d\x7d]\x7d".toList)]
      ("data: \x7boops".toList)
      (by decide) (by decide) (by decide)⟩

/-- C10: a complete segment whose JSON lacks a text value at
`candidates[0].content.parts[0].text`, or whose text there is the
empty string, produces no output frame. -/
theorem c10_empty_fragment_dropped (seg : Str) (j : JValue)
    (hpre : dataMarker.isPrefixOf seg = true)
    (hparse : jsonParse (seg.drop 6) = some j)
    (hext : extractGeminiText j = none ∨ extractGeminiText j = some (.jstr [])) :
    processLine seg = none := by
  simp only [processLine, hpre, if_true, hparse]
  rcases hext with h | h <;> simp [geminiTextValue, h, JValue.truthy]

/-- Witness for C10: one segment with no parts and one with empty
text. -/
theorem c10_empty_fragment_dropped_witness :
    (dataMarker.isPrefixOf ("data: \x7b\"candidates\":[\x7b\"content\":\x7b\"parts\":[\x7b\"text\":\"\"\x7d]\x7d\x7d]\x7d".toList) = true
      ∧ jsonParse (("data: \x7b\"candidates\":[\x7b\"content\":\x7b\"parts\":[\x7b\"text\":\"\"\x7d]\x7d\x7d]\x7d".toList).drop 6)
          = some (.jobj [("candidates".toList, .jarr [.jobj [("content".toList,
              .jobj [("parts".toList, .jarr [.jobj [("text".toList, .jstr [])]])])]])])
      ∧ (extractGeminiText (.jobj [("candidates".toList, .jarr [.jobj [("content".toList,
              .jobj [("parts".toList, .jarr [.jobj [("text".toList, .jstr [])]])])]])]) = none
          ∨ extractGeminiText (.jobj [("candidates".toList, .jarr [.jobj [("content".toList,
              .jobj [("parts".toList, .jarr [.jobj [("text".toList, .jstr [])]])])]])])
            = some (.jstr [])))
    ∧ processLine ("data: \x7b\"candidates\":[\x7b\"content\":\x7b\"parts\":[\x7b\"text\":\"\"\x7d]\x7d\x7d]\x7d".toList) = none :=
  ⟨⟨by decide, by decide, Or.inr (by decide)⟩,
    c10_empty_fragment_dropped
      ("data: \x7b\"candidates\":[\x7b\"content\":\x7b\"parts\":[\x7b\"text\":\"\"\x7d]\x7d\x7d]\x7d".toList)
      (.jobj [("candidates".toList, .jarr [.jobj [("content".toList,
        .jobj [("parts".toList, .jarr [.jobj [("text".toList, .jstr [])]])])]])])
      (by decide) (by decide) (Or.inr (by decide))⟩

/-! ## Claims about the request builder and handler -/

/-- C5 counterexample: a history with no user turn at all — the spec's
repair would fail with `InvalidHistoryError`, but the builder happily
maps both assistant turns to `model` turns: nothing is dropped, merged,
or rejected. -/
theorem c5_counterexample :
    specRepairHistory [⟨"assistant", .jstr ['a'], none⟩, ⟨"assistant", .jstr ['b'], none⟩] = none
    ∧ geminiContents [⟨"assistant", .jstr ['a'], none⟩, ⟨"assistant", .jstr ['b'], none⟩]
        = [.jobj [("role".toList, .jstr ("model".toList)),
                  ("parts".toList, .jarr [.jobj [("text".toList, .jstr ['a'])]])],
           .jobj [("role".toList, .jstr ("model".toList)),
                  ("parts".toList, .jarr [.jobj [("text".toList, .jstr ['b'])]])]] :=
  ⟨by decide, by decide⟩

/-- C5 (amended): the builder performs no conversation repair at all —
every incoming turn is mapped one-to-one and in order (role `user`
stays `user`, any other role becomes `model`; existing truthy `parts`
pass through, otherwise the content is wrapped as one text part); no
turn is dropped or merged and no `InvalidHistoryError` exists. -/
theorem c5_builder_maps_one_to_one (msgs : List Msg) :
    (geminiContents msgs).length = msgs.length
    ∧ ∀ (i : Nat) (h : i < msgs.length),
        (geminiContents msgs).get? i = some (mapGeminiMsg (msgs.get ⟨i, h⟩)) := by
  refine ⟨by simp [geminiContents], ?_⟩
  intro i h
  rw [geminiContents, List.get?_map, List.get?_eq_get h]
  rfl

/-- Witness for C5's amended statement. -/
theorem c5_builder_maps_one_to_one_witness :
    (0 < ([⟨"user", .jstr ['h'], none⟩] : List Msg).length)
    ∧ (geminiContents [⟨"user", .jstr ['h'], none⟩]).get? 0
        = some (mapGeminiMsg (([⟨"user", .jstr ['h'], none⟩] : List Msg).get ⟨0, by decide⟩)) :=
  ⟨by decide, (c5_builder_maps_one_to_one [⟨"user", .jstr ['h'], none⟩]).2 0 (by decide)⟩

/-- C6: the multimodal block rewrites the last element of the caller's
`messages` array in place (the rewritten object is the caller's own),
so after the handler runs, the caller's turn sequence is no longer what
it passed in: evaluating the splice at a valid image, an
OpenAI-compatible model and a final user turn changes the turn. -/
theorem c6_splice_mutates_caller_turn :
    spliceMessages "gpt-4o" (some "data:image/png;base64,AAAA")
        [⟨"user", .jstr ("hi".toList), none⟩]
      = [⟨"user", .jarr [
          .jobj [("type".toList, .jstr ("text".toList)), ("text".toList, .jstr ("hi".toList))],
          .jobj [("type".toList, .jstr ("image_url".toList)),
                 ("image_url".toList, .jobj [("url".toList,
                    .jstr ("data:image/png;base64,AAAA".toList))])]], none⟩]
    ∧ spliceMessages "gpt-4o" (some "data:image/png;base64,AAAA")
        [⟨"user", .jstr ("hi".toList), none⟩]
      ≠ [⟨"user", .jstr ("hi".toList), none⟩] :=
  ⟨by decide, by decide⟩

theorem dropLast_append_of_getLast? {α : Type} {l : List α} {m : α}
    (h : l.getLast? = some m) : l.dropLast ++ [m] = l := by
  have hne : l ≠ [] := by
    intro he
    rw [he] at h
    exact absurd h (by simp)
  have hm : m = l.getLast hne := by
    have := List.getLast?_eq_getLast l hne
    rw [h] at this
    exact Option.some.inj this
  rw [hm]
  exact List.dropLast_append_getLast hne

theorem spliceMessages_some (model img : String) (msgs : List Msg) :
    spliceMessages model (some img) msgs
      = if img.toList = [] then msgs
        else match msgs.getLast? with
          | none => msgs
          | some m => msgs.dropLast ++ [spliceLast model img m] := rfl

theorem spliceMessages_last {model img : String} {msgs : List Msg} {m : Msg}
    (hlast : msgs.getLast? = some m) (hne : ¬ img.toList = []) :
    spliceMessages model (some img) msgs = msgs.dropLast ++ [spliceLast model img m] := by
  rw [spliceMessages_some, if_neg hne, hlast]

theorem spliceLast_no_match {model img : String} {m : Msg}
    (h : matchImageDataUrl img.toList = none) :
    spliceLast model img m = m := by
  by_cases hrole : m.role = "user"
  · simp only [spliceLast, if_pos hrole, h]
  · simp only [spliceLast, if_neg hrole]

theorem spliceLast_match_openai {model img : String} {m : Msg} {a b : Str}
    (hrole : m.role = "user")
    (hmatch : matchImageDataUrl img.toList = some (a, b))
    (hgem : isGeminiModel model = false) :
    spliceLast model img m
      = { m with content := .jarr [
          .jobj [("type".toList, .jstr ("text".toList)), ("text".toList, m.content)],
          .jobj [("type".toList, .jstr ("image_url".toList)),
                 ("image_url".toList, .jobj [("url".toList, .jstr img.toList)])]] } := by
  simp only [spliceLast, if_pos hrole, hmatch, hgem]
  rfl

/-- C7 (amended, with the source's own greedy data-URL pattern
`^data:(image\/.+);base64,(.+)$` in place of the spec's
`^data:(image/[^;]+);base64,(.+)$`): an image failing the source's
pattern yields a built descriptor identical to one built with no image
at all, and a matching image with a final user turn makes the built
body's last message content exactly the two-element
`[{type:"text",...},{type:"image_url",image_url:{url:<data URL>}}]`
list. -/
theorem c7_attachment_invariant (env : Env) (model img : String)
    (stream : Option JValue) (msgs : List Msg) :
    (matchImageDataUrl img.toList = none →
      ollamaConfig env model stream (spliceMessages model (some img) msgs)
        = ollamaConfig env model stream (spliceMessages model none msgs))
    ∧ (∀ m a b, msgs.getLast? = some m → m.role = "user" →
        matchImageDataUrl img.toList = some (a, b) →
        isGeminiModel model = false →
        spliceMessages model (some img) msgs
          = msgs.dropLast ++ [{ m with content := .jarr [
              .jobj [("type".toList, .jstr ("text".toList)), ("text".toList, m.content)],
              .jobj [("type".toList, .jstr ("image_url".toList)),
                     ("image_url".toList, .jobj [("url".toList, .jstr img.toList)])]] }]
        ∧ ((ollamaConfig env model stream (spliceMessages model (some img) msgs)).body).getField
              ("messages".toList)
          = some (.jarr ((msgs.dropLast ++ [{ m with content := .jarr [
              .jobj [("type".toList, .jstr ("text".toList)), ("text".toList, m.content)],
              .jobj [("type".toList, .jstr ("image_url".toList)),
                     ("image_url".toList, .jobj [("url".toList, .jstr img.toList)])]] }]).map msgToJson))) := by
  constructor
  · intro hmatch
    have hid : spliceMessages model (some img) msgs = msgs := by
      rw [spliceMessages_some]
      by_cases hne : img.toList = []
      · rw [if_pos hne]
      · rw [if_neg hne]
        cases hlast : msgs.getLast? with
        | none => rfl
        | some m =>
          show msgs.dropLast ++ [spliceLast model img m] = msgs
          rw [spliceLast_no_match hmatch]
          exact dropLast_append_of_getLast? hlast
    rw [hid]
    rfl
  · intro m a b hlast hrole hmatch hgem
    have hne : ¬ img.toList = [] := by
      intro he
      rw [he, show matchImageDataUrl [] = none from by decide] at hmatch
      exact absurd hmatch (by simp)
    have hsplice : spliceMessages model (some img) msgs
        = msgs.dropLast ++ [{ m with content := .jarr [
            .jobj [("type".toList, .jstr ("text".toList)), ("text".toList, m.content)],
            .jobj [("type".toList, .jstr ("image_url".toList)),
                   ("image_url".toList, .jobj [("url".toList, .jstr img.toList)])]] }] := by
      rw [spliceMessages_last hlast hne, spliceLast_match_openai hrole hmatch hgem]
    refine ⟨hsplice, ?_⟩
    rw [hsplice]
    rfl

/-- Witness for C7's amended statement: one malformed image (body
identical to the no-image build) and one valid image (last message
content becomes exactly the text + image_url pair). -/
theorem c7_attachment_invariant_witness :
    (matchImageDataUrl ("notaurl".toList) = none
      ∧ ollamaConfig ⟨"", ""⟩ "gpt-4o" none
            (spliceMessages "gpt-4o" (some "notaurl") [⟨"user", .jstr ("hi".toList), none⟩])
          = ollamaConfig ⟨"", ""⟩ "gpt-4o" none
            (spliceMessages "gpt-4o" none [⟨"user", .jstr ("hi".toList), none⟩]))
    ∧ (matchImageDataUrl ("data:image/png;base64,AAAA".toList)
          = some ("png".toList, "AAAA".toList)
      ∧ spliceMessages "gpt-4o" (some "data:image/png;base64,AAAA")
            [⟨"user", .jstr ("hi".toList), none⟩]
          = [⟨"user", .jarr [
              .jobj [("type".toList, .jstr ("text".toList)), ("text".toList, .jstr ("hi".toList))],
              .jobj [("type".toList, .jstr ("image_url".toList)),
                     ("image_url".toList, .jobj [("url".toList,
                        .jstr ("data:image/png;base64,AAAA".toList))])]], none⟩]
      ∧ ((ollamaConfig ⟨"", ""⟩ "gpt-4o" none
            (spliceMessages "gpt-4o" (some "data:image/png;base64,AAAA")
              [⟨"user", .jstr ("hi".toList), none⟩])).body).getField ("messages".toList)
          = some (.jarr [.jobj [
              ("role".toList, .jstr ("user".toList)),
              ("content".toList, .jarr [
                .jobj [("type".toList, .jstr ("text".toList)), ("text".toList, .jstr ("hi".toList))],
                .jobj [("type".toList, .jstr ("image_url".toList)),
                       ("image_url".toList, .jobj [("url".toList,
                          .jstr ("data:image/png;base64,AAAA".toList))])]])]])) :=
  ⟨⟨by decide,
    (c7_attachment_invariant ⟨"", ""⟩ "gpt-4o" "notaurl" none
      [⟨"user", .jstr ("hi".toList), none⟩]).1 (by decide)⟩,
   by
    have h := (c7_attachment_invariant ⟨"", ""⟩ "gpt-4o" "data:image/png;base64,AAAA" none
      [⟨"user", .jstr ("hi".toList), none⟩]).2 ⟨"user", .jstr ("hi".toList), none⟩
      ("png".toList) ("AAAA".toList) (by decide) (by decide) (by decide) (by decide)
    exact ⟨by decide, h.1, h.2⟩⟩

/-- C7 counterexample: `data:image/a;b;base64,x` fails the spec's
data-URL pattern (`[^;]+` cannot cross the first `;`), yet the source's
greedy `.+` matches it, so the built body differs from the one built
with no image — refuting "absent or pattern-failing image yields an
identical body" for the spec's pattern. -/
theorem c7_counterexample :
    specImageDataUrlMatch ("data:image/a;b;base64,x".toList) = none
    ∧ ollamaConfig ⟨"", ""⟩ "gpt-4o" none
          (spliceMessages "gpt-4o" (some "data:image/a;b;base64,x")
            [⟨"user", .jstr ("hi".toList), none⟩])
        ≠ ollamaConfig ⟨"", ""⟩ "gpt-4o" none [⟨"user", .jstr ("hi".toList), none⟩] :=
  ⟨by decide, by decide⟩

/-- C8: a missing `model` field, or a `messages` field that is absent,
not an array, or an empty array, makes the handler answer 400 with a
`{error: …}` JSON body and decide no upstream call. -/
theorem c8_invalid_request_rejected (env : Env) (rb : ReqBody)
    (h : rb.model = none
        ∨ rb.messages = .absent
        ∨ (∃ v, rb.messages = .notArray v)
        ∨ rb.messages = .arr []) :
    ∃ msg, routeChatRequest env rb = .early 400 (errObj msg) := by
  obtain ⟨mo, ms, st, im⟩ := rb
  cases mo with
  | none => exact ⟨_, rfl⟩
  | some m =>
    simp only [routeChatRequest]
    by_cases hm : m.toList = []
    · rw [if_pos hm]
      exact ⟨_, rfl⟩
    · rw [if_neg hm]
      rcases h with h | h | ⟨v, h⟩ | h
      · exact absurd h (by simp)
      all_goals (simp only at h; subst h; exact ⟨_, rfl⟩)

/-- Witness for C8 at `model` missing. -/
theorem c8_invalid_request_rejected_witness :
    ((⟨none, .arr [⟨"user", .jstr ("hi".toList), none⟩], none, none⟩ : ReqBody).model = none
      ∨ (⟨none, .arr [⟨"user", .jstr ("hi".toList), none⟩], none, none⟩ : ReqBody).messages = .absent
      ∨ (∃ v, (⟨none, .arr [⟨"user", .jstr ("hi".toList), none⟩], none, none⟩ : ReqBody).messages = .notArray v)
      ∨ (⟨none, .arr [⟨"user", .jstr ("hi".toList), none⟩], none, none⟩ : ReqBody).messages = .arr [])
    ∧ ∃ msg, routeChatRequest ⟨"", ""⟩
        ⟨none, .arr [⟨"user", .jstr ("hi".toList), none⟩], none, none⟩ = .early 400 (errObj msg) :=
  ⟨Or.inl rfl,
   c8_invalid_request_rejected ⟨"", ""⟩
     ⟨none, .arr [⟨"user", .jstr ("hi".toList), none⟩], none, none⟩ (Or.inl rfl)⟩

theorem processBuffered_429 (provider : Provider) (bodyText : Str) (data : JValue)
    (hp : jsonParse bodyText = some data) :
    (processBuffered provider 429 bodyText).status = 429
    ∧ ∃ s rest, (processBuffered provider 429 bodyText).body
        = .jobj (("error".toList, .jstr s) :: rest) := by
  simp only [processBuffered, hp]
  rw [if_pos (by decide : ¬ statusOk 429 = true)]
  exact ⟨rfl, _, _, rfl⟩

theorem processBuffered_shape (provider : Provider) (status : Nat) (bodyText : Str) :
    (∃ s rest, (processBuffered provider status bodyText).body
        = .jobj (("error".toList, .jstr s) :: rest))
    ∨ ((processBuffered provider status bodyText).status = 200
        ∧ ∃ v, (processBuffered provider status bodyText).body
            = .jobj [("reply".toList, v)]) := by
  cases hp : jsonParse bodyText with
  | none =>
    left
    simp only [processBuffered, hp]
    exact ⟨_, _, rfl⟩
  | some data =>
    by_cases hok : statusOk status = true
    · cases he : data.getField ("error".toList) with
      | some err =>
        by_cases ht : err.truthy = true
        · left
          simp only [processBuffered, hp, he]
          rw [if_neg (show ¬ ¬ statusOk status = true by simp [hok]), if_pos ht]
          exact ⟨_, _, rfl⟩
        · cases hr : extractReply provider data with
          | none =>
            left
            simp only [processBuffered, processBuffered.processReply, hp, he, hr]
            rw [if_neg (show ¬ ¬ statusOk status = true by simp [hok]),
              if_neg (show ¬ err.truthy = true by simp [ht])]
            exact ⟨_, [], rfl⟩
          | some reply =>
            right
            refine ⟨?_, reply, ?_⟩ <;>
              (simp only [processBuffered, processBuffered.processReply, hp, he, hr]
               rw [if_neg (show ¬ ¬ statusOk status = true by simp [hok]),
                 if_neg (show ¬ err.truthy = true by simp [ht])])
      | none =>
        cases hr : extractReply provider data with
        | none =>
          left
          simp only [processBuffered, processBuffered.processReply, hp, he, hr]
          rw [if_neg (show ¬ ¬ statusOk status = true by simp [hok])]
          exact ⟨_, [], rfl⟩
        | some reply =>
          right
          refine ⟨?_, reply, ?_⟩ <;>
            (simp only [processBuffered, processBuffered.processReply, hp, he, hr]
             rw [if_neg (show ¬ ¬ statusOk status = true by simp [hok])])
    · left
      simp only [processBuffered, hp]
      rw [if_pos hok]
      exact ⟨_, _, rfl⟩

/-- C9 (amended): on the buffered path every upstream outcome becomes
either an error-first JSON envelope or the 200 reply success body —
never a non-JSON or unhandled result.  A non-JSON
upstream body ends in the outer catch's 500 envelope, because the
failed `json()` read consumed the single-read body and the catch
branch's `text()` re-read throws; an upstream 429 whose body is valid
JSON keeps status 429 with an error envelope.  (On the streaming path
the upstream status is forwarded but the body is the stream itself,
see the counterexample.) -/
theorem c9_failure_envelope (provider : Provider) (status : Nat) (bodyText : Str) :
    ((∃ s rest, (processBuffered provider status bodyText).body
        = .jobj (("error".toList, .jstr s) :: rest))
      ∨ ((processBuffered provider status bodyText).status = 200
        ∧ ∃ v, (processBuffered provider status bodyText).body
            = .jobj [("reply".toList, v)]))
    ∧ (jsonParse bodyText = none →
        (processBuffered provider status bodyText).status = 500)
    ∧ (status = 429 → (∃ data, jsonParse bodyText = some data) →
        (processBuffered provider status bodyText).status = 429
        ∧ ∃ s rest, (processBuffered provider status bodyText).body
            = .jobj (("error".toList, .jstr s) :: rest)) :=
  ⟨processBuffered_shape provider status bodyText,
   fun hp => by simp only [processBuffered, hp],
   fun h hdata => by
     subst h
     obtain ⟨data, hp⟩ := hdata
     exact processBuffered_429 provider bodyText data hp⟩

/-- Witness for C9's amended statement at an upstream 429 with a valid
JSON body. -/
theorem c9_failure_envelope_witness :
    ((429 : Nat) = 429)
    ∧ (∃ data, jsonParse ("\x7b\"message\":\"slow down\"\x7d".toList) = some data)
    ∧ ((processBuffered .gemini 429 ("\x7b\"message\":\"slow down\"\x7d".toList)).status = 429
      ∧ ∃ s rest, (processBuffered .gemini 429 ("\x7b\"message\":\"slow down\"\x7d".toList)).body
          = .jobj (("error".toList, .jstr s) :: rest)) :=
  ⟨rfl, ⟨.jobj [("message".toList, .jstr ("slow down".toList))], by decide⟩,
   (c9_failure_envelope .gemini 429 ("\x7b\"message\":\"slow down\"\x7d".toList)).2.2 rfl
     ⟨.jobj [("message".toList, .jstr ("slow down".toList))], by decide⟩⟩

/-- C9 counterexample: in streaming mode an upstream 429 is forwarded
with the (transformed) stream as body — here the body is exactly the
terminator frame, which is not JSON at all, so the failure does reach
the caller as a non-JSON body rather than a `{error: …}` envelope. -/
theorem c9_counterexample :
    streamingResponse .gemini 429 [] = (429, doneFrame)
    ∧ jsonParse doneFrame = none :=
  ⟨by decide, by decide⟩

/-! ## End-to-end checks against the specification's scenarios -/

-- Scenario D: a single Gemini native fragment followed by end-of-stream
example : runStream [("data: \x7b\"candidates\":[\x7b\"content\":\x7b\"parts\":[\x7b\"text\":\"Hi\"\x7d]\x7d\x7d]\x7d\n\n".toList)]
    = [("data: \x7b\"choices\":[\x7b\"delta\":\x7b\"content\":\"Hi\"\x7d,\"index\":0,\"finish_reason\":null\x7d]\x7d\n\n".toList),
       doneFrame] := by decide

-- Scenario D, bytes split at an arbitrary boundary inside the JSON
example : runStream ["data: \x7b\"candidates\":[\x7b\"cont".toList,
                     "ent\":\x7b\"parts\":[\x7b\"text\":\"Hi\"\x7d]\x7d\x7d]\x7d\n\n".toList]
    = [("data: \x7b\"choices\":[\x7b\"delta\":\x7b\"content\":\"Hi\"\x7d,\"index\":0,\"finish_reason\":null\x7d]\x7d\n\n".toList),
       doneFrame] := by decide

-- Scenario A: buffered Gemini success is unwrapped into 200 {reply}
example : processBuffered .gemini 200
      ("\x7b\"candidates\":[\x7b\"content\":\x7b\"parts\":[\x7b\"text\":\"hello\"\x7d]\x7d\x7d]\x7d".toList)
    = ⟨200, .jobj [("reply".toList, .jstr ("hello".toList))]⟩ := by decide

-- Scenario B: buffered upstream 429 keeps status 429 with an error envelope
example : (processBuffered .gemini 429 ("\x7b\"message\":\"slow down\"\x7d".toList)).status = 429 := by decide

-- Empty upstream stream still terminates with exactly the [DONE] frame
example : runStream [] = [doneFrame] := by decide

-- A buffered non-JSON upstream body (any status) collapses into the
-- outer catch's 500 envelope: the failed json() read consumed the
-- single-read body, so the catch branch's text() re-read throws.
example : processBuffered .gemini 429 ("too many requests".toList)
    = ⟨500, .jobj [("error".toList,
        .jstr ("Worker internal error: Body has already been used".toList))]⟩ := by decide
